import Mathlib

/-!
Shallow embedding of the terminal buffer core (`buffer` package, file
`src/unnamed/part_000`) of the aminal repository.

Conventions of the embedding:
* Go unsigned machine integers (`uint16`, `uint`, `uint64`) are represented as
  `Nat` holding the integer value; wherever the Go source performs a conversion
  or an arithmetic step that can wrap, the wrap is made explicit through
  `u16ofInt` / `u16trunc` / `goIntOfU64` below.  Go `int` is 64-bit and never
  overflows on the values exercised here, so it is represented as `Int`.
* Go slices of lines become `List Line`; mutation through a `*Line` pointer
  returned by `getViewLine` becomes explicit index passing
  (`getViewLineIdx` returns the possibly-extended buffer plus a raw index).
* Go `panic` on out-of-range slice indexing is not representable by `List.set`
  (which is a no-op out of range); every theorem that walks such code carries
  in-range hypotheses.  For `GetRawCell`, where reachability of the panic is
  itself the question, the panic condition is modelled explicitly by
  `GetRawCellFaults`.
* Loops whose bound is not structural take an explicit fuel argument; the fuel
  supplied by the wrappers is a crude upper bound on the number of iterations
  the Go loop can perform, and running out of fuel returns the state unchanged.
-/

namespace Aminal

/-- Reduction of an `Int` to a Go `uint16` value: two's-complement wrap into
`[0, 65536)`.  Used at every Go conversion to `uint16` and for `uint16`
subtraction, which wraps. -/
def u16ofInt (i : Int) : Nat := (i % 65536).toNat

/-- Truncation of a Go `uint`/`uint64` value to `uint16` (`uint16(x)` in Go). -/
def u16trunc (n : Nat) : Nat := n % 65536

/-- Reduction of an `Int` to a Go `uint`/`uint64` value (wrap into `[0, 2^64)`). -/
def u64ofInt (i : Int) : Nat := (i % (2 ^ 64)).toNat

/-- Go conversion `int(x)` for `x : uint64`: two's-complement reinterpretation
of the low 64 bits as a signed 64-bit integer. -/
def goIntOfU64 (n : Nat) : Int :=
  if n % 2 ^ 64 < 2 ^ 63 then ((n % 2 ^ 64 : Nat) : Int)
  else ((n % 2 ^ 64 : Nat) : Int) - 2 ^ 64

/-- Cell style attributes.  Modelled from the spec: the `CellAttributes` record
(foreground colour, background colour and the boolean style flags) lives in a
source file that is not part of `src/`; colours are abstracted to `Nat`. -/
structure CellAttributes where
  fgColour : Nat := 0
  bgColour : Nat := 0
  bold : Bool := false
  dim : Bool := false
  italic : Bool := false
  underline : Bool := false
  blink : Bool := false
  reverse : Bool := false
  hidden : Bool := false
  strikethrough : Bool := false
deriving DecidableEq, Repr

/-- A single grid cell.  Modelled from the spec: holds one base code point
(`0` meaning blank) plus attributes; the `Cell` type itself is declared in a
source file that is not part of `src/`. -/
structure Cell where
  r : Nat := 0
  attr : CellAttributes := {}
deriving DecidableEq, Repr

/-- `cell.setRune(r)`.  Modelled from the spec: sets the base character. -/
def Cell.setRune (c : Cell) (r : Nat) : Cell := { c with r := r }

/-- A line of the grid.  Modelled from the spec: an ordered sequence of cells
plus the soft-wrap continuation flag; declared in a source file that is not
part of `src/`. -/
structure Line where
  cells : List Cell := []
  wrapped : Bool := false
deriving DecidableEq, Repr

instance : Inhabited Line := ⟨{}⟩

/-- `newLine()`.  Modelled from the spec: a freshly created line is empty and
is not a wrap continuation (`wrapped = false` means "started by an explicit
line feed or the first line"). -/
def newLine : Line := {}

/-- `line.setWrapped(wrapped)`.  Modelled from the spec. -/
def Line.setWrapped (l : Line) (w : Bool) : Line := { l with wrapped := w }

/-- Selection endpoint (`type Position struct { Line, Col int }`). -/
structure Position where
  Line : Int
  Col : Int
deriving DecidableEq, Repr

/-- The terminal buffer state (`type Buffer struct`), with the
`displayChangeHandlers` channel list omitted (never consulted by the code under
`src/`) and the wall-clock `selectionClickTime` abstracted to a `Nat`. -/
structure Buffer where
  lines : List Line
  cursorX : Nat
  cursorY : Nat
  viewHeight : Nat
  viewWidth : Nat
  cursorAttr : CellAttributes
  savedX : Nat
  savedY : Nat
  scrollLinesFromBottom : Nat
  topMargin : Nat
  bottomMargin : Nat
  replaceMode : Bool
  originMode : Bool
  lineFeedMode : Bool
  autoWrap : Bool
  dirty : Bool
  selectionStart : Option Position
  selectionEnd : Option Position
  selectionComplete : Bool
  selectionExpanded : Bool
  selectionClickTime : Nat
  defaultCell : Cell
  maxLines : Nat
deriving DecidableEq, Repr

/-- Replace the element at index `i` by `f` of it; out of range, the list is
unchanged (the Go source only indexes in range on the paths we verify). -/
def listModify (l : List Line) (i : Nat) (f : Line → Line) : List Line :=
  match l.get? i with
  | none => l
  | some a => l.set i (f a)

/-- `buffer.emitDisplayChange()` (the deferred dirty signal). -/
def emitDisplayChange (b : Buffer) : Buffer := { b with dirty := true }

/-- `buffer.IsDirty()`: test-and-clear of the dirty flag; returns the flag
value read together with the updated buffer. -/
def IsDirty (b : Buffer) : Bool × Buffer :=
  if b.dirty then (true, { b with dirty := false }) else (false, b)

/-- `buffer.SetVerticalMargins(top, bottom)`. -/
def SetVerticalMargins (b : Buffer) (top bottom : Nat) : Buffer :=
  { b with topMargin := top, bottomMargin := bottom }

/-- `buffer.SaveCursor()`. -/
def SaveCursor (b : Buffer) : Buffer :=
  { b with savedX := b.cursorX, savedY := b.cursorY }

/-- `buffer.RestoreCursor()`. -/
def RestoreCursor (b : Buffer) : Buffer :=
  { b with cursorX := b.savedX, cursorY := b.savedY }

/-- `buffer.Height()`: the raw line count. -/
def Height (b : Buffer) : Nat := b.lines.length

/-- `buffer.getMaxLines()`: `maxLines` silently raised to `viewHeight`. -/
def getMaxLines (b : Buffer) : Nat := max b.maxLines b.viewHeight

/-- `buffer.HasScrollableRegion()`.  The Go comparison is
`bottomMargin < uint(viewHeight)-1`, computed in `uint`, so `viewHeight = 0`
wraps. -/
def HasScrollableRegion (b : Buffer) : Bool :=
  decide (0 < b.topMargin) || decide (b.bottomMargin < u64ofInt ((b.viewHeight : Int) - 1))

/-- `buffer.InScrollableRegion()`. -/
def InScrollableRegion (b : Buffer) : Bool :=
  HasScrollableRegion b && decide (b.topMargin ≤ b.cursorY) && decide (b.cursorY ≤ b.bottomMargin)

/-- `buffer.convertViewLineToRawLine(viewLine)`. -/
def convertViewLineToRawLine (b : Buffer) (viewLine : Nat) : Nat :=
  if b.lines.length < b.viewHeight then viewLine
  else viewLine + (b.lines.length - b.viewHeight)

/-- `buffer.RawLine()`: the raw index of the cursor line. -/
def RawLine (b : Buffer) : Nat := convertViewLineToRawLine b b.cursorY

/-- The cell list of the cursor's line (empty when the cursor line does not
exist in the store). -/
def cursorLineCells (b : Buffer) : List Cell :=
  ((b.lines.get? (RawLine b)).getD default).cells

/-- The line store after `buffer.getViewLine(index)`: when the store is
shorter than the view, lines are appended until row `index` exists. -/
def gvlPad (b : Buffer) (index : Nat) : List Line :=
  if b.viewHeight ≤ index then b.lines
  else if b.lines.length < b.viewHeight then
    if b.lines.length ≤ index then b.lines ++ List.replicate (index + 1 - b.lines.length) newLine
    else b.lines
  else b.lines

/-- The raw index of the line the Go pointer returned by
`buffer.getViewLine(index)` refers to. -/
def gvlIdx (b : Buffer) (index : Nat) : Nat :=
  if b.viewHeight ≤ index then b.lines.length - 1
  else if b.lines.length < b.viewHeight then index
  else if convertViewLineToRawLine b index < b.lines.length then convertViewLineToRawLine b index
  else b.lines.length

/-- `buffer.getViewLine(index)`, returning the (possibly extended) buffer plus
the raw index of the line the returned Go pointer refers to.  The first branch
with an empty store and the unreachable final branch would panic in Go; they
are totalised here (see the module comment). -/
def getViewLineIdx (b : Buffer) (index : Nat) : Buffer × Nat :=
  ({ b with lines := gvlPad b index }, gvlIdx b index)

/-- `buffer.getCurrentLine()` (creates missing lines up to the cursor row). -/
def getCurrentLineIdx (b : Buffer) : Buffer × Nat := getViewLineIdx b b.cursorY

/-- The body of the Go loop `for i := topIndex; i < bottomIndex; i++
{ lines[i] = lines[i+1] }`, run for `n = bottomIndex - topIndex` iterations
starting at `i`.  Reads happen on the partially updated list, exactly as the
in-place Go loop does. -/
def scrollShift : List Line → Nat → Nat → List Line
  | ls, _, 0 => ls
  | ls, i, Nat.succ n => scrollShift (ls.set i ((ls.get? (i + 1)).getD default)) (i + 1) n

/-- Raw index of the top margin as used by `Index`/`ReverseIndex`
(`convertViewLineToRawLine(uint16(topMargin))`). -/
def topRawIndex (b : Buffer) : Nat := convertViewLineToRawLine b (u16trunc b.topMargin)

/-- Raw index of the bottom margin as used by `Index`/`ReverseIndex`. -/
def bottomRawIndex (b : Buffer) : Nat := convertViewLineToRawLine b (u16trunc b.bottomMargin)

/-- `buffer.Index()`. -/
def Index (b : Buffer) : Buffer :=
  let b' :=
    if InScrollableRegion b then
      if b.cursorY < b.bottomMargin then { b with cursorY := b.cursorY + 1 }
      else
        let ls := scrollShift b.lines (topRawIndex b) (bottomRawIndex b - topRawIndex b)
        { b with lines := ls.set (bottomRawIndex b) newLine }
    else if u16ofInt ((b.viewHeight : Int) - 1) ≤ b.cursorY then
      let ls := b.lines ++ [newLine]
      let mx := getMaxLines b
      if mx < ls.length then { b with lines := ls.drop (ls.length - mx) }
      else { b with lines := ls }
    else { b with cursorY := b.cursorY + 1 }
  emitDisplayChange b'

/-- `buffer.incrementCursorPosition()`. -/
def incrementCursorPosition (b : Buffer) : Buffer :=
  if b.cursorX < b.viewWidth then { b with cursorX := b.cursorX + 1 } else b

/-- `buffer.IsNewLineMode()`. -/
def IsNewLineMode (b : Buffer) : Bool := b.lineFeedMode == false

/-- Fuel for the wrap-skipping loop of `NewLineEx`: each iteration either
increments the cursor row (bounded by the bottom margin or the view height)
or replaces the current line by a fresh unwrapped one and stops. -/
def newLineFuel (b : Buffer) : Nat := b.viewHeight + b.bottomMargin + b.lines.length + 4

/-- The Go loop in `NewLineEx`: fetch the current line (extending the store if
needed), stop if it is not wrapped, otherwise `Index` and repeat. -/
def newLineLoop : Nat → Buffer → Buffer
  | 0, b => b
  | Nat.succ fuel, b =>
    let p := getCurrentLineIdx b
    if ((p.1.lines.get? p.2).getD default).wrapped then newLineLoop fuel (Index p.1) else p.1

/-- `buffer.NewLineEx(forceCursorToMargin)`. -/
def NewLineEx (b : Buffer) (forceCursorToMargin : Bool) : Buffer :=
  let b := if IsNewLineMode b || forceCursorToMargin then { b with cursorX := 0 } else b
  newLineLoop (newLineFuel b) (Index b)

/-- `buffer.NewLine()`. -/
def NewLine (b : Buffer) : Buffer := NewLineEx b false

/-- Extend the cells of line `li` with `defaultCell`s until the cell at column
`col` exists (the Go loop `for cursorColumn >= len(line.cells) { append }`). -/
def padCells (b : Buffer) (li : Nat) (col : Nat) : Buffer :=
  { b with lines := listModify b.lines li (fun l =>
      { l with cells := l.cells ++ List.replicate (col + 1 - l.cells.length) b.defaultCell }) }

/-- Overwrite the cell of line `li` at column `col` with rune `r` and the
current cursor attributes (`cell.setRune(r); cell.attr = buffer.cursorAttr`). -/
def setCellAt (b : Buffer) (li col : Nat) (r : Nat) : Buffer :=
  { b with lines := listModify b.lines li (fun l =>
      { l with cells := l.cells.set col { r := r, attr := b.cursorAttr } }) }

/-- The body of `Write`'s `for _, r := range runes` loop for a single rune.
The returned `Bool` is `false` when the Go code executes `return`, aborting
the whole `Write` call. -/
def writeOne (b0 : Buffer) (r : Nat) : Buffer × Bool :=
  let p := getCurrentLineIdx b0
  let b := p.1
  let li := p.2
  if b.replaceMode then
    if b.viewWidth ≤ b.cursorX then (b, false)
    else
      let b := padCells b li b.cursorX
      let b := setCellAt b li b.cursorX r
      (incrementCursorPosition b, true)
  else
    if b.viewWidth ≤ b.cursorX then
      if b.autoWrap then
        let b := NewLineEx b true
        let q := getCurrentLineIdx b
        let b := q.1
        let li2 := q.2
        let b := if ((b.lines.get? li2).getD default).cells.length = 0 then padCells b li2 0 else b
        let b := setCellAt b li2 0 r
        (incrementCursorPosition b, true)
      else (b, false)
    else
      let b := padCells b li b.cursorX
      let b := setCellAt b li b.cursorX r
      (incrementCursorPosition b, true)

/-- The rune loop of `Write`. -/
def writeRunes : Buffer → List Nat → Buffer
  | b, [] => b
  | b, r :: rest =>
    let p := writeOne b r
    if p.2 then writeRunes p.1 rest else p.1

/-- `buffer.Write(runes...)`: snaps the scroll offset to the bottom, then
writes each rune. -/
def Write (b : Buffer) (runes : List Nat) : Buffer :=
  writeRunes { b with scrollLinesFromBottom := 0 } runes

/-- The loop of `CarriageReturn`: walk up while the current line is a wrap
continuation.  Fuel `cursorY + 1` is exact: every iteration decrements the
cursor row and the loop stops at row `0`. -/
def carriageLoop : Nat → Buffer → Buffer
  | 0, b => b
  | Nat.succ fuel, b =>
    let p := getCurrentLineIdx b
    if ((p.1.lines.get? p.2).getD default).wrapped && decide (0 < p.1.cursorY) then
      carriageLoop fuel { p.1 with cursorY := p.1.cursorY - 1 }
    else p.1

/-- `buffer.CarriageReturn()`. -/
def CarriageReturn (b : Buffer) : Buffer :=
  let b := carriageLoop (b.cursorY + 1) b
  { b with cursorX := 0 }

/-- The loop of `Tab`: `shift` separate calls of `buffer.Write(' ')`. -/
def tabLoop : Nat → Buffer → Buffer
  | 0, b => b
  | Nat.succ k, b => tabLoop k (Write b [32])

/-- `buffer.Tab()`. -/
def Tab (b : Buffer) : Buffer :=
  let tabSize : Int := 4
  let mx : Int := if b.cursorX < b.viewWidth then (b.viewWidth : Int) - b.cursorX - 1 else tabSize
  let shift : Int := tabSize - ((b.cursorX : Int) + 1) % 4
  let shift : Int := if mx < shift then mx else shift
  tabLoop shift.toNat b

/-- The loop of `EraseLineFromCursor`: `max` separate calls of
`buffer.Write(0)`. -/
def eraseWriteLoop : Nat → Buffer → Buffer
  | 0, b => b
  | Nat.succ k, b => eraseWriteLoop k (Write b [0])

/-- `buffer.EraseLineFromCursor()`: truncate the current line at the cursor
column when the cursor is inside it, then pad to the view width by writing
nulls through the writer between a `SaveCursor`/`RestoreCursor` pair. -/
def EraseLineFromCursor (b0 : Buffer) : Buffer :=
  let p := getCurrentLineIdx b0
  let b := p.1
  let li := p.2
  let line := (b.lines.get? li).getD default
  let b :=
    if 0 < line.cells.length then
      if b.cursorX < line.cells.length then
        { b with lines := listModify b.lines li (fun l => { l with cells := l.cells.take b.cursorX }) }
      else b
    else b
  let lineT := (b.lines.get? li).getD default
  let mx : Int := (b.viewWidth : Int) - lineT.cells.length
  let b := SaveCursor b
  let b := eraseWriteLoop mx.toNat b
  let b := RestoreCursor b
  emitDisplayChange b

/-- `buffer.GetRawCell(viewCol, rawLine)`.  The bounds check converts the
`uint64` row to `int`; when that conversion wraps negative the check passes
and Go would panic on the line access — that case is totalised to `none` here
and captured by `GetRawCellFaults`. -/
def GetRawCell (b : Buffer) (viewCol : Nat) (rawLine : Nat) : Option Cell :=
  if (b.lines.length : Int) ≤ goIntOfU64 rawLine then none
  else
    match b.lines.get? rawLine with
    | none => none
    | some line => if line.cells.length ≤ viewCol then none else line.cells.get? viewCol

/-- The condition under which the Go `GetRawCell` panics: the wrapped-int
bounds check passes although the raw row is out of range. -/
def GetRawCellFaults (b : Buffer) (rawLine : Nat) : Bool :=
  decide (goIntOfU64 rawLine < (b.lines.length : Int)) && decide (b.lines.length ≤ rawLine)

/-- `buffer.GetCell(viewCol, viewRow)`. -/
def GetCell (b : Buffer) (viewCol viewRow : Nat) : Option Cell :=
  GetRawCell b viewCol (convertViewLineToRawLine b viewRow)

/-- `buffer.SetPosition(col, line)`.  Under origin mode the row is shifted by
`uint16(topMargin)` (a wrapping `uint16` addition) and clamped at
`uint16(bottomMargin)`; otherwise it is clamped at `viewHeight - 1` (a
wrapping `uint16` subtraction).  The column is clamped at `viewWidth - 1`. -/
def SetPosition (b : Buffer) (col line : Nat) : Buffer :=
  let useCol := col
  let useLine := line
  let maxLine := u16ofInt ((b.viewHeight : Int) - 1)
  let useLine := if b.originMode then u16trunc (useLine + u16trunc b.topMargin) else useLine
  let maxLine := if b.originMode then u16trunc b.bottomMargin else maxLine
  let useLine := if maxLine < useLine then maxLine else useLine
  let useCol := if b.viewWidth ≤ useCol then u16ofInt ((b.viewWidth : Int) - 1) else useCol
  emitDisplayChange { b with cursorX := useCol, cursorY := useLine }

/-- `buffer.SetOriginMode(enabled)`: store the flag, then `SetPosition(0, 0)`. -/
def SetOriginMode (b : Buffer) (enabled : Bool) : Buffer :=
  SetPosition { b with originMode := enabled } 0 0

/-- The line-shrinking walk of `ResizeView` (`width < viewWidth`): split every
line longer than the new width, prepending the overflow to an already-wrapped
successor or inserting a fresh wrapped line.  The loop index advances by one
every iteration; the fuel supplied by `ResizeView` bounds the final length of
the list.  (The `cursorYMovement` counter of the source is computed but never
read afterwards, so it is omitted.) -/
def shrinkLoop (width : Nat) : Nat → Nat → List Line → List Line
  | 0, _, ls => ls
  | Nat.succ fuel, i, ls =>
    match ls.get? i with
    | none => ls
    | some line =>
      if width < line.cells.length then
        let silly := line.cells.drop width
        let ls := ls.set i { line with cells := line.cells.take width }
        match ls.get? (i + 1) with
        | some next =>
          if next.wrapped then
            shrinkLoop width fuel (i + 1) (ls.set (i + 1) { next with cells := silly ++ next.cells })
          else
            shrinkLoop width fuel (i + 1)
              (ls.take (i + 1) ++ ({ cells := silly, wrapped := true } : Line) :: ls.drop (i + 1))
        | none =>
          shrinkLoop width fuel (i + 1)
            (ls.take (i + 1) ++ ({ cells := silly, wrapped := true } : Line) :: ls.drop (i + 1))
      else shrinkLoop width fuel (i + 1) ls

/-- The inner unwrap loop of `ResizeView` (`width > viewWidth`): pull cells
from the next wrapped line onto line `i` while space remains, deleting lines
emptied entirely. -/
def growInner (width : Nat) : Nat → Nat → Nat → List Line → List Line
  | 0, _, _, ls => ls
  | Nat.succ fuel, i, offset, ls =>
    if i + offset < ls.length then
      let next := (ls.get? (i + offset)).getD default
      if next.wrapped then
        let line := (ls.get? i).getD default
        let space : Int := (width : Int) - line.cells.length
        if space ≤ 0 then ls
        else
          let moveCount := min space.toNat next.cells.length
          let ls := ls.set i { line with cells := line.cells ++ next.cells.take moveCount }
          if moveCount = next.cells.length then
            growInner width fuel i offset (ls.eraseIdx (i + offset))
          else
            growInner width fuel i (offset + 1) (ls.set (i + offset) { next with cells := next.cells.drop moveCount })
      else ls
    else ls

/-- The outer unwrap loop of `ResizeView` (`for i := 0; i < len(lines)-1; i++`). -/
def growOuter (width : Nat) : Nat → Nat → List Line → List Line
  | 0, _, ls => ls
  | Nat.succ fuel, i, ls =>
    if i + 1 < ls.length then
      growOuter width fuel (i + 1) (growInner width (2 * ls.length + 2) i 1 ls)
    else ls

/-- Fuel for `shrinkLoop`: the loop index advances every iteration and the
list grows by at most one line per cell held, so the initial length plus the
total cell count bounds the iteration count. -/
def shrinkFuel (ls : List Line) : Nat :=
  ls.length + (ls.map (fun l => l.cells.length)).sum + 1

/-- `buffer.ResizeView(width, height)`. -/
def ResizeView (b : Buffer) (width height : Nat) : Buffer :=
  if b.viewHeight = 0 then
    emitDisplayChange { b with viewWidth := width, viewHeight := height }
  else
    let p := getCurrentLineIdx b
    let b := p.1
    let curLine := (b.lines.get? p.2).getD default
    let cXFromEndOfLine : Int := (curLine.cells.length : Int) - ((b.cursorX : Int) + 1)
    let ls :=
      if width < b.viewWidth then shrinkLoop width (shrinkFuel b.lines) 0 b.lines
      else if b.viewWidth < width then growOuter width (b.lines.length + 1) 0 b.lines
      else b.lines
    let b := { b with lines := ls, viewWidth := width, viewHeight := height }
    let cY := u16ofInt ((b.lines.length : Int) - 1)
    let cY := if height ≤ cY then u16ofInt ((height : Int) - 1) else cY
    let b := { b with cursorY := cY }
    let q := getCurrentLineIdx b
    let b := q.1
    let fline := (b.lines.get? q.2).getD default
    let b := { b with cursorX := u16ofInt ((fline.cells.length : Int) - cXFromEndOfLine - 1) }
    let b := SetVerticalMargins b 0 (u16ofInt ((height : Int) - 1))
    emitDisplayChange b

/-- `buffer.ResetVerticalMargins()`. -/
def ResetVerticalMargins (b : Buffer) : Buffer :=
  SetVerticalMargins b 0 (u16ofInt ((b.viewHeight : Int) - 1))

/-- `NewBuffer(viewCols, viewLines, attr, maxLines)`.  The Go expression
`uint(viewLines-1)` subtracts in `uint16` (wrapping) before widening. -/
def NewBuffer (viewCols viewLines : Nat) (attr : CellAttributes) (maxLines : Nat) : Buffer :=
  let b : Buffer := {
    lines := [], cursorX := 0, cursorY := 0, viewHeight := 0, viewWidth := 0,
    cursorAttr := attr, savedX := 0, savedY := 0, scrollLinesFromBottom := 0,
    topMargin := 0, bottomMargin := 0, replaceMode := false, originMode := false,
    lineFeedMode := false, autoWrap := true, dirty := false,
    selectionStart := none, selectionEnd := none, selectionComplete := false,
    selectionExpanded := false, selectionClickTime := 0,
    defaultCell := { r := 0, attr := attr }, maxLines := maxLines }
  let b := SetVerticalMargins b 0 (u16ofInt ((viewLines : Int) - 1))
  ResizeView b viewCols viewLines

/-- Default cell attributes, used by the concrete buffers below. -/
def dAttr : CellAttributes := {}

/-- A one-cell line holding the code point `r`. -/
def mkRow (r : Nat) : Line := { cells := [{ r := r, attr := dAttr }], wrapped := false }

/-- The DECSTBM scenario of the spec (§8, scenario 2): width 4, height 5, rows
"A".."E", margins (1,3), cursor at column 0 of the bottom margin row. -/
def bScroll : Buffer :=
  { lines := [mkRow 65, mkRow 66, mkRow 67, mkRow 68, mkRow 69],
    cursorX := 0, cursorY := 3, viewHeight := 5, viewWidth := 4,
    cursorAttr := dAttr, savedX := 0, savedY := 0, scrollLinesFromBottom := 0,
    topMargin := 1, bottomMargin := 3, replaceMode := false, originMode := false,
    lineFeedMode := false, autoWrap := true, dirty := false,
    selectionStart := none, selectionEnd := none, selectionComplete := false,
    selectionExpanded := false, selectionClickTime := 0,
    defaultCell := { r := 0, attr := dAttr }, maxLines := 10 }

/-! ## Helper lemmas -/

theorem scrollShift_length (n i : Nat) (ls : List Line) :
    (scrollShift ls i n).length = ls.length := by
  induction n generalizing i ls with
  | zero => rfl
  | succ n ih => simp [scrollShift, ih]

/-! ## Claims -/

set_option maxRecDepth 16000

/-- Claim C1 (code bug): with autoWrap on and replaceMode off, writing
`viewWidth + 1` printable code points from column 0 of an empty row of a fresh
2-column buffer does produce two lines, the first holding the first two
characters and the second holding the last character at column 0 — but the
second line's `wrapped` flag is `false`: the autoWrap branch of `Write` never
sets it, although the claim (and the spec's scenario 1) requires `true`. -/
theorem C1_write_autowrap_eval :
    (Write (NewBuffer 2 2 dAttr 10) [97, 98, 99]).lines.map (fun l => (l.cells.map Cell.r, l.wrapped))
      = [([97, 98], false), ([99], false)]
    ∧ (Write (NewBuffer 2 2 dAttr 10) [97, 98, 99]).cursorX = 1
    ∧ (Write (NewBuffer 2 2 dAttr 10) [97, 98, 99]).cursorY = 1 := by
  decide

/-- Claim C2 (counterexample): from a fresh 2×2 buffer with `maxLines = 2`,
filling both rows and then resizing the view to width 1 reflows two 2-cell
lines into four lines, exceeding `max(maxLines, viewHeight) = 2`:
`ResizeView` applies no cap. -/
theorem C2_counterexample :
    (ResizeView (Write (NewBuffer 2 2 dAttr 2) [97, 98, 99, 100]) 1 2).lines.length = 4
    ∧ getMaxLines (ResizeView (Write (NewBuffer 2 2 dAttr 2) [97, 98, 99, 100]) 1 2) = 2
    ∧ ¬ (ResizeView (Write (NewBuffer 2 2 dAttr 2) [97, 98, 99, 100]) 1 2).lines.length
        ≤ getMaxLines (ResizeView (Write (NewBuffer 2 2 dAttr 2) [97, 98, 99, 100]) 1 2) := by
  decide

/-- Claim C2 (amended): the `maxLines` cap is enforced on the only
line-appending path of the write pipeline — `Index` never grows the grid
store past `max(maxLines, viewHeight)` — but `resizeView` to a smaller width
can exceed that bound (see the counterexample). -/
theorem C2_index_respects_cap (b : Buffer) (h : b.lines.length ≤ getMaxLines b) :
    (Index b).lines.length ≤ getMaxLines b := by
  simp only [Index, emitDisplayChange]
  split_ifs with h1 h2 h3 h4
  · exact h
  · simpa only [List.length_set, scrollShift_length] using h
  · simp only [List.length_append, List.length_singleton] at h4 ⊢
    simp only [List.length_drop, List.length_append, List.length_singleton]
    omega
  · simp only [List.length_append, List.length_singleton] at h4 ⊢
    omega
  · exact h

/-- Witness for `C2_index_respects_cap` at a fresh 2×2 buffer. -/
theorem C2_index_respects_cap_witness :
    (Index (NewBuffer 2 2 dAttr 10)).lines.length ≤ getMaxLines (NewBuffer 2 2 dAttr 10) :=
  C2_index_respects_cap (NewBuffer 2 2 dAttr 10) (by decide)

/-- Claim C3 (counterexample): writing four characters into a fresh 4×2
buffer, issuing a carriage return, and resizing the view to 2×2 leaves the
cursor column at 65534 (the Go `uint16` wrap of `-2`), far beyond the new
view width 2, so the cursor bounds do not survive `ResizeView`. -/
theorem C3_counterexample :
    (ResizeView (CarriageReturn (Write (NewBuffer 4 2 dAttr 10) [97, 98, 99, 100])) 2 2).cursorX
      = 65534
    ∧ (ResizeView (CarriageReturn (Write (NewBuffer 4 2 dAttr 10) [97, 98, 99, 100])) 2 2).viewWidth
      = 2
    ∧ ¬ (ResizeView (CarriageReturn (Write (NewBuffer 4 2 dAttr 10) [97, 98, 99, 100])) 2 2).cursorX
        ≤ (ResizeView (CarriageReturn (Write (NewBuffer 4 2 dAttr 10) [97, 98, 99, 100])) 2 2).viewWidth := by
  decide

/-- Claim C3 (amended): the cursor bounds are established by the cursor
movement primitives — `SetPosition` (with origin mode off) leaves
`cursorRow < viewHeight` and `cursorColumn < viewWidth`, and
`incrementCursorPosition` never pushes `cursorColumn` past `viewWidth` — but
they can fail immediately after `resizeView` (see the counterexample). -/
theorem C3_setposition_bounds (b : Buffer) (col line : Nat)
    (hm : b.originMode = false) (hw1 : 1 ≤ b.viewWidth) (hw2 : b.viewWidth < 65536)
    (hh1 : 1 ≤ b.viewHeight) (hh2 : b.viewHeight < 65536) :
    (SetPosition b col line).cursorX < b.viewWidth
    ∧ (SetPosition b col line).cursorY < b.viewHeight
    ∧ (b.cursorX ≤ b.viewWidth → (incrementCursorPosition b).cursorX ≤ b.viewWidth) := by
  simp only [SetPosition, emitDisplayChange, incrementCursorPosition, u16ofInt, u16trunc, hm,
    if_false, Bool.false_eq_true]
  refine ⟨?_, ?_, ?_⟩
  · split_ifs <;> omega
  · split_ifs <;> omega
  · intro h
    split
    · change b.cursorX + 1 ≤ b.viewWidth
      omega
    · exact h

/-- Witness for `C3_setposition_bounds`: a fresh 4×3 buffer with an
out-of-range requested position (10, 10). -/
theorem C3_setposition_bounds_witness :
    (SetPosition (NewBuffer 4 3 dAttr 10) 10 10).cursorX < (NewBuffer 4 3 dAttr 10).viewWidth
    ∧ (SetPosition (NewBuffer 4 3 dAttr 10) 10 10).cursorY < (NewBuffer 4 3 dAttr 10).viewHeight
    ∧ ((NewBuffer 4 3 dAttr 10).cursorX ≤ (NewBuffer 4 3 dAttr 10).viewWidth →
        (incrementCursorPosition (NewBuffer 4 3 dAttr 10)).cursorX
          ≤ (NewBuffer 4 3 dAttr 10).viewWidth) :=
  C3_setposition_bounds (NewBuffer 4 3 dAttr 10) 10 10 (by decide) (by decide) (by decide)
    (by decide) (by decide)

/-- Claim C5 (counterexample): after draining the dirty flag of a fresh 2×2
buffer, writing a character mutates the grid (the first row now holds it) yet
the next `IsDirty` call returns `false`: a plain in-line `Write` never raises
the dirty flag. -/
theorem C5_counterexample :
    (IsDirty (Write (IsDirty (NewBuffer 2 2 dAttr 10)).2 [97])).1 = false
    ∧ (Write (IsDirty (NewBuffer 2 2 dAttr 10)).2 [97]).lines
        ≠ ((IsDirty (NewBuffer 2 2 dAttr 10)).2).lines := by
  decide

/-- Claim C6 (counterexample): on a fresh 10-column buffer with the cursor at
column 0, `Tab` moves the cursor to column 3 — not to column 4, the next
multiple of 4 demanded by the claim: the tab stops of the code are the
columns congruent to 3 modulo 4. -/
theorem C6_counterexample :
    (Tab (NewBuffer 10 3 dAttr 10)).cursorX = 3
    ∧ (Tab (NewBuffer 10 3 dAttr 10)).cursorX ≠ 4 := by
  decide

/-- Claim C7 (counterexample): `GetRawCell` is not fault-free for every
`uint64` raw row: at raw row `2^63` the conversion `int(rawLine)` wraps
negative, the bounds check `int(rawLine) >= len(lines)` passes, and the
subsequent `lines[rawLine]` access panics (here: `GetRawCellFaults` holds). -/
theorem C7_counterexample :
    GetRawCellFaults (Write (NewBuffer 2 2 dAttr 10) [97]) (2 ^ 63) = true := by
  decide

/-- Claim C8 (counterexample): `SetVerticalMargins` does not reset the cursor:
with the cursor previously placed at (1, 1), setting margins (0, 2) stores the
margins but leaves the cursor row at 1, not 0. -/
theorem C8_counterexample :
    (SetVerticalMargins (SetPosition (NewBuffer 4 4 dAttr 10) 1 1) 0 2).cursorY = 1
    ∧ (SetVerticalMargins (SetPosition (NewBuffer 4 4 dAttr 10) 1 1) 0 2).cursorY ≠ 0 := by
  decide

/-- Claim C8 (amended): `SetVerticalMargins(top, bottom)` stores the given
margins and leaves the cursor position unchanged. -/
theorem C8_margins_stored_cursor_unchanged (b : Buffer) (top bottom : Nat) :
    (SetVerticalMargins b top bottom).topMargin = top
    ∧ (SetVerticalMargins b top bottom).bottomMargin = bottom
    ∧ (SetVerticalMargins b top bottom).cursorX = b.cursorX
    ∧ (SetVerticalMargins b top bottom).cursorY = b.cursorY :=
  ⟨rfl, rfl, rfl, rfl⟩

theorem scrollShift_get? (n : Nat) :
    ∀ (i : Nat) (ls : List Line), i + n < ls.length →
      ∀ j, (scrollShift ls i n).get? j
        = if i ≤ j ∧ j < i + n then ls.get? (j + 1) else ls.get? j := by
  induction n with
  | zero =>
    intro i ls _ j
    rw [scrollShift, if_neg (by omega)]
  | succ n ih =>
    intro i ls hlen j
    rw [scrollShift, ih (i + 1) _ (by rw [List.length_set]; omega) j]
    by_cases hji : j = i
    · subst hji
      rw [if_neg (by omega), if_pos (by omega), List.get?_set_eq_of_lt _ (by omega)]
      cases hget : ls.get? (j + 1) with
      | none => exact absurd (List.get?_eq_none.mp hget) (by omega)
      | some y => simp [hget]
    · by_cases hc : i + 1 ≤ j ∧ j < i + 1 + n
      · rw [if_pos hc, if_pos (by omega)]
        exact List.get?_set_ne _ _ (by omega)
      · rw [if_neg hc, if_neg (by omega)]
        exact List.get?_set_ne _ _ (by omega)

/-- Claim C4 (counterexample): on the spec's own DECSTBM scenario (rows
"A".."E", margins (1,3), cursor on the bottom margin), `Index` moves row 3
into row 2 — the content at row 2 after the call is the prior row 3, not the
prior row 1 as the claim's "rows [top+1, bottom] equal prior rows
[top, bottom-1]" direction demands. -/
theorem C4_counterexample :
    (Index bScroll).lines.get? 2 ≠ bScroll.lines.get? 1
    ∧ (Index bScroll).lines.get? 2 = bScroll.lines.get? 3 := by
  decide

/-- Claim C4 (amended): when `index` is issued with the cursor inside an
active scroll region and on the bottom margin, the region scrolls up: the
content at raw rows [topIndex, bottomIndex-1] afterwards equals the prior
content at raw rows [topIndex+1, bottomIndex], the bottom-margin row becomes
a fresh blank line, and the cursor row is unchanged. -/
theorem C4_index_scrolls_up (b : Buffer)
    (hIn : InScrollableRegion b = true)
    (hBot : b.bottomMargin ≤ b.cursorY)
    (hLen : bottomRawIndex b < b.lines.length) :
    (∀ j, topRawIndex b ≤ j → j < bottomRawIndex b →
      (Index b).lines.get? j = b.lines.get? (j + 1))
    ∧ (Index b).lines.get? (bottomRawIndex b) = some newLine
    ∧ (Index b).cursorY = b.cursorY := by
  have hnotlt : ¬ b.cursorY < b.bottomMargin := by omega
  have hIdx : (Index b).lines
      = (scrollShift b.lines (topRawIndex b) (bottomRawIndex b - topRawIndex b)).set
          (bottomRawIndex b) newLine := by
    simp [Index, emitDisplayChange, hIn, hnotlt]
  have hCur : (Index b).cursorY = b.cursorY := by
    simp [Index, emitDisplayChange, hIn, hnotlt]
  refine ⟨?_, ?_, hCur⟩
  · intro j hj1 hj2
    rw [hIdx, List.get?_set_ne _ _ (by omega)]
    rw [scrollShift_get? _ _ _ (by omega) j, if_pos (by omega)]
  · rw [hIdx]
    exact List.get?_set_eq_of_lt _ (by rw [scrollShift_length]; omega)

/-- Witness for `C4_index_scrolls_up` on the spec's DECSTBM scenario buffer
(raw top index 1, raw bottom index 3). -/
theorem C4_index_scrolls_up_witness :
    (Index bScroll).lines.get? 1 = bScroll.lines.get? 2
    ∧ (Index bScroll).lines.get? (bottomRawIndex bScroll) = some newLine
    ∧ (Index bScroll).cursorY = bScroll.cursorY := by
  refine ⟨?_, ?_, ?_⟩
  · exact (C4_index_scrolls_up bScroll (by decide) (by decide) (by decide)).1 1
      (by decide) (by decide)
  · exact (C4_index_scrolls_up bScroll (by decide) (by decide) (by decide)).2.1
  · exact (C4_index_scrolls_up bScroll (by decide) (by decide) (by decide)).2.2

theorem Index_dirty (b : Buffer) : (Index b).dirty = true := by
  simp only [Index, emitDisplayChange]

theorem padCells_dirty (b : Buffer) (li col : Nat) : (padCells b li col).dirty = b.dirty := rfl

theorem setCellAt_dirty (b : Buffer) (li col r : Nat) :
    (setCellAt b li col r).dirty = b.dirty := rfl

theorem incrementCursorPosition_dirty (b : Buffer) :
    (incrementCursorPosition b).dirty = b.dirty := by
  unfold incrementCursorPosition
  split <;> rfl

theorem writeOne_dirty (b : Buffer) (r : Nat) (hx : b.cursorX < b.viewWidth) :
    (writeOne b r).1.dirty = b.dirty ∧ (writeOne b r).2 = true := by
  have hnot : ¬ b.viewWidth ≤ b.cursorX := by omega
  simp only [writeOne, getCurrentLineIdx, getViewLineIdx, hnot, if_false]
  split
  · exact ⟨by rw [incrementCursorPosition_dirty, setCellAt_dirty, padCells_dirty], rfl⟩
  · exact ⟨by rw [incrementCursorPosition_dirty, setCellAt_dirty, padCells_dirty], rfl⟩

/-- Claim C5 (amended): `isDirty` reads and clears the flag — an immediately
repeated call with no intervening mutation returns `false` — and the flag is
raised by the scroll/erase/resize family (here represented by `Index`), but a
plain in-line `Write` does not raise it, so `isDirty` can return `false` even
though a write mutated the screen since the previous call. -/
theorem C5_dirty_flag (b : Buffer) (r : Nat) (hd : b.dirty = false)
    (hx : b.cursorX < b.viewWidth) :
    (IsDirty (Write b [r])).1 = false
    ∧ (IsDirty (Index b)).1 = true
    ∧ (IsDirty (IsDirty (Index b)).2).1 = false := by
  refine ⟨?_, ?_, ?_⟩
  · have h1 : (Write b [r]).dirty = false := by
      obtain ⟨hw1, hw2⟩ := writeOne_dirty { b with scrollLinesFromBottom := 0 } r hx
      rcases hq : writeOne { b with scrollLinesFromBottom := 0 } r with ⟨b1, fl⟩
      rw [hq] at hw1 hw2
      show (writeRunes { b with scrollLinesFromBottom := 0 } [r]).dirty = false
      simp only [writeRunes, hq, show fl = true from hw2, if_true]
      exact hw1.trans hd
    simp [IsDirty, h1]
  · simp [IsDirty, Index_dirty]
  · simp [IsDirty, Index_dirty]

/-- Witness for `C5_dirty_flag` at a drained fresh 3×3 buffer. -/
theorem C5_dirty_flag_witness :
    (IsDirty (Write (IsDirty (NewBuffer 3 3 dAttr 10)).2 [98])).1 = false
    ∧ (IsDirty (Index (IsDirty (NewBuffer 3 3 dAttr 10)).2)).1 = true
    ∧ (IsDirty (IsDirty (Index (IsDirty (NewBuffer 3 3 dAttr 10)).2)).2).1 = false :=
  C5_dirty_flag (IsDirty (NewBuffer 3 3 dAttr 10)).2 98 (by decide) (by decide)

theorem goIntOfU64_small (n : Nat) (h : n < 2 ^ 63) : goIntOfU64 n = (n : Int) := by
  have h64 : n < 2 ^ 64 := by omega
  simp only [goIntOfU64, Nat.mod_eq_of_lt h64]
  rw [if_pos h]

theorem getRawCellFaults_small (b : Buffer) (n : Nat) (h : n < 2 ^ 63) :
    GetRawCellFaults b n = false := by
  simp only [GetRawCellFaults, goIntOfU64_small n h, Bool.and_eq_false_iff,
    decide_eq_false_iff_not, not_lt, not_le]
  omega

/-- Claim C7 (amended): for every raw row below `2^63`, `GetRawCell` is
bounds-checked and fault-free — a row at or beyond the line count, or a column
at or beyond the line's cell count, yields an absent result — and `GetCell`
inherits this for every view coordinate (given a sanely sized store); but for
raw rows at or above `2^63` the `int(rawLine)` conversion wraps negative, the
bounds check passes and the access faults (see the counterexample). -/
theorem C7_get_cell_bounds (b : Buffer) (viewCol rawLine viewRow : Nat)
    (hraw : rawLine < 2 ^ 63) (hlen : b.lines.length < 2 ^ 62) (hrow : viewRow < 65536) :
    GetRawCellFaults b rawLine = false
    ∧ (b.lines.length ≤ rawLine → GetRawCell b viewCol rawLine = none)
    ∧ (∀ line, b.lines.get? rawLine = some line → line.cells.length ≤ viewCol →
        GetRawCell b viewCol rawLine = none)
    ∧ GetRawCellFaults b (convertViewLineToRawLine b viewRow) = false
    ∧ (b.lines.length ≤ convertViewLineToRawLine b viewRow →
        GetCell b viewCol viewRow = none) := by
  have hconv : convertViewLineToRawLine b viewRow < 2 ^ 63 := by
    simp only [convertViewLineToRawLine]
    split <;> omega
  refine ⟨getRawCellFaults_small b rawLine hraw, ?_, ?_, getRawCellFaults_small b _ hconv, ?_⟩
  · intro hle
    rw [GetRawCell, if_pos]
    rw [goIntOfU64_small rawLine hraw]
    exact_mod_cast hle
  · intro line hline hcols
    have hlt : rawLine < b.lines.length := by
      by_contra hge
      rw [List.get?_eq_none.mpr (by omega)] at hline
      exact Option.noConfusion hline
    rw [GetRawCell, if_neg (by rw [goIntOfU64_small rawLine hraw]; exact_mod_cast not_le.mpr hlt)]
    rw [hline]
    exact if_pos hcols
  · intro hle
    rw [GetCell, GetRawCell, if_pos]
    rw [goIntOfU64_small _ hconv]
    exact_mod_cast hle

/-- Witness for `C7_get_cell_bounds` at a fresh 2×2 buffer holding one
character, queried out of range. -/
theorem C7_get_cell_bounds_witness :
    GetRawCellFaults (Write (NewBuffer 2 2 dAttr 10) [97]) 5 = false
    ∧ ((Write (NewBuffer 2 2 dAttr 10) [97]).lines.length ≤ 5 →
        GetRawCell (Write (NewBuffer 2 2 dAttr 10) [97]) 3 5 = none)
    ∧ (∀ line, (Write (NewBuffer 2 2 dAttr 10) [97]).lines.get? 5 = some line →
        line.cells.length ≤ 3 → GetRawCell (Write (NewBuffer 2 2 dAttr 10) [97]) 3 5 = none)
    ∧ GetRawCellFaults (Write (NewBuffer 2 2 dAttr 10) [97])
        (convertViewLineToRawLine (Write (NewBuffer 2 2 dAttr 10) [97]) 1) = false
    ∧ ((Write (NewBuffer 2 2 dAttr 10) [97]).lines.length
          ≤ convertViewLineToRawLine (Write (NewBuffer 2 2 dAttr 10) [97]) 1 →
        GetCell (Write (NewBuffer 2 2 dAttr 10) [97]) 3 1 = none) :=
  C7_get_cell_bounds (Write (NewBuffer 2 2 dAttr 10) [97]) 3 5 1 (by decide) (by decide)
    (by decide)

/-- Claim C10: `SetOriginMode` stores the flag and then calls
`SetPosition(0, 0)`, so enabling origin mode places the cursor at column 0,
row `topMargin` clamped at `bottomMargin` (i.e. `min topMargin bottomMargin`),
and disabling it places the cursor at column 0, row 0, whatever the prior
cursor position was. -/
theorem C10_origin_mode_cursor (b : Buffer)
    (hw1 : 1 ≤ b.viewWidth) (hw2 : b.viewWidth < 65536)
    (hh1 : 1 ≤ b.viewHeight) (hh2 : b.viewHeight < 65536)
    (ht : b.topMargin < 65536) (hb : b.bottomMargin < 65536) :
    (SetOriginMode b true).cursorX = 0
    ∧ (SetOriginMode b true).cursorY = min b.topMargin b.bottomMargin
    ∧ (SetOriginMode b true).originMode = true
    ∧ (SetOriginMode b false).cursorX = 0
    ∧ (SetOriginMode b false).cursorY = 0
    ∧ (SetOriginMode b false).originMode = false := by
  have h1 : (SetOriginMode b true).cursorX = 0 := by
    simp [SetOriginMode, SetPosition, emitDisplayChange, u16ofInt, u16trunc]
    omega
  have h2 : (SetOriginMode b true).cursorY = min b.topMargin b.bottomMargin := by
    rcases le_or_lt b.topMargin b.bottomMargin with hc | hc
    · rw [min_eq_left hc]
      simp [SetOriginMode, SetPosition, emitDisplayChange, u16ofInt, u16trunc]
      (try split_ifs) <;> omega
    · rw [min_eq_right (Nat.le_of_lt hc)]
      simp [SetOriginMode, SetPosition, emitDisplayChange, u16ofInt, u16trunc]
      (try split_ifs) <;> omega
  have h4 : (SetOriginMode b false).cursorX = 0 := by
    simp [SetOriginMode, SetPosition, emitDisplayChange, u16ofInt, u16trunc]
    omega
  have h5 : (SetOriginMode b false).cursorY = 0 := by
    simp [SetOriginMode, SetPosition, emitDisplayChange, u16ofInt, u16trunc]
  exact ⟨h1, h2, rfl, h4, h5, rfl⟩

@[simp] theorem padCells_savedX (b : Buffer) (li col : Nat) :
    (padCells b li col).savedX = b.savedX := rfl

@[simp] theorem padCells_savedY (b : Buffer) (li col : Nat) :
    (padCells b li col).savedY = b.savedY := rfl

@[simp] theorem setCellAt_savedX (b : Buffer) (li col r : Nat) :
    (setCellAt b li col r).savedX = b.savedX := rfl

@[simp] theorem setCellAt_savedY (b : Buffer) (li col r : Nat) :
    (setCellAt b li col r).savedY = b.savedY := rfl

@[simp] theorem incrementCursorPosition_savedX (b : Buffer) :
    (incrementCursorPosition b).savedX = b.savedX := by
  unfold incrementCursorPosition
  split <;> rfl

@[simp] theorem incrementCursorPosition_savedY (b : Buffer) :
    (incrementCursorPosition b).savedY = b.savedY := by
  unfold incrementCursorPosition
  split <;> rfl

@[simp] theorem Index_savedX (b : Buffer) : (Index b).savedX = b.savedX := by
  simp only [Index, emitDisplayChange]
  split_ifs <;> rfl

@[simp] theorem Index_savedY (b : Buffer) : (Index b).savedY = b.savedY := by
  simp only [Index, emitDisplayChange]
  split_ifs <;> rfl

@[simp] theorem newLineLoop_savedX (fuel : Nat) :
    ∀ b : Buffer, (newLineLoop fuel b).savedX = b.savedX := by
  induction fuel with
  | zero => intro b; rfl
  | succ n ih =>
    intro b
    simp only [newLineLoop]
    split
    · rw [ih, Index_savedX]
      rfl
    · rfl

@[simp] theorem newLineLoop_savedY (fuel : Nat) :
    ∀ b : Buffer, (newLineLoop fuel b).savedY = b.savedY := by
  induction fuel with
  | zero => intro b; rfl
  | succ n ih =>
    intro b
    simp only [newLineLoop]
    split
    · rw [ih, Index_savedY]
      rfl
    · rfl

@[simp] theorem NewLineEx_savedX (b : Buffer) (force : Bool) :
    (NewLineEx b force).savedX = b.savedX := by
  simp only [NewLineEx, newLineLoop_savedX, Index_savedX]
  split <;> rfl

@[simp] theorem NewLineEx_savedY (b : Buffer) (force : Bool) :
    (NewLineEx b force).savedY = b.savedY := by
  simp only [NewLineEx, newLineLoop_savedY, Index_savedY]
  split <;> rfl

@[simp] theorem writeOne_savedX (b : Buffer) (r : Nat) :
    (writeOne b r).1.savedX = b.savedX := by
  simp only [writeOne, getCurrentLineIdx, getViewLineIdx]
  split_ifs <;> simp

@[simp] theorem writeOne_savedY (b : Buffer) (r : Nat) :
    (writeOne b r).1.savedY = b.savedY := by
  simp only [writeOne, getCurrentLineIdx, getViewLineIdx]
  split_ifs <;> simp

@[simp] theorem writeRunes_savedX (rs : List Nat) :
    ∀ b : Buffer, (writeRunes b rs).savedX = b.savedX := by
  induction rs with
  | nil => intro b; rfl
  | cons r rest ih =>
    intro b
    simp only [writeRunes]
    split
    · rw [ih, writeOne_savedX]
    · rw [writeOne_savedX]

@[simp] theorem writeRunes_savedY (rs : List Nat) :
    ∀ b : Buffer, (writeRunes b rs).savedY = b.savedY := by
  induction rs with
  | nil => intro b; rfl
  | cons r rest ih =>
    intro b
    simp only [writeRunes]
    split
    · rw [ih, writeOne_savedY]
    · rw [writeOne_savedY]

@[simp] theorem Write_savedX (b : Buffer) (rs : List Nat) :
    (Write b rs).savedX = b.savedX := by
  simp only [Write, writeRunes_savedX]

@[simp] theorem Write_savedY (b : Buffer) (rs : List Nat) :
    (Write b rs).savedY = b.savedY := by
  simp only [Write, writeRunes_savedY]

@[simp] theorem eraseWriteLoop_savedX (k : Nat) :
    ∀ b : Buffer, (eraseWriteLoop k b).savedX = b.savedX := by
  induction k with
  | zero => intro b; rfl
  | succ n ih =>
    intro b
    simp only [eraseWriteLoop]
    rw [ih, Write_savedX]

@[simp] theorem eraseWriteLoop_savedY (k : Nat) :
    ∀ b : Buffer, (eraseWriteLoop k b).savedY = b.savedY := by
  induction k with
  | zero => intro b; rfl
  | succ n ih =>
    intro b
    simp only [eraseWriteLoop]
    rw [ih, Write_savedY]

/-- Claim C9: `EraseLineFromCursor` overwrites the saved-cursor slot.  It
calls `SaveCursor` before its null-writing loop and `RestoreCursor` after, so
when it returns, both the saved slot and the cursor hold the position the
cursor had when `EraseLineFromCursor` began — and a subsequent
`RestoreCursor` therefore moves the cursor to that position, not to the one
stored by the most recent explicit `SaveCursor`. -/
theorem C9_erase_line_saved_cursor (b : Buffer) :
    (EraseLineFromCursor b).savedX = b.cursorX
    ∧ (EraseLineFromCursor b).savedY = b.cursorY
    ∧ (EraseLineFromCursor b).cursorX = b.cursorX
    ∧ (EraseLineFromCursor b).cursorY = b.cursorY
    ∧ (RestoreCursor (EraseLineFromCursor b)).cursorX = b.cursorX
    ∧ (RestoreCursor (EraseLineFromCursor b)).cursorY = b.cursorY := by
  refine ⟨?_, ?_, ?_, ?_, ?_, ?_⟩ <;>
    · simp only [EraseLineFromCursor, getCurrentLineIdx, getViewLineIdx, SaveCursor,
        RestoreCursor, emitDisplayChange]
      split_ifs <;> simp

/-- Witness for `C10_origin_mode_cursor` on a 10×8 buffer with margins
(2, 5) and the cursor previously at (4, 4). -/
theorem C10_origin_mode_cursor_witness :
    (SetOriginMode (SetPosition (SetVerticalMargins (NewBuffer 10 8 dAttr 10) 2 5) 4 4) true).cursorX = 0
    ∧ (SetOriginMode (SetPosition (SetVerticalMargins (NewBuffer 10 8 dAttr 10) 2 5) 4 4) true).cursorY
        = min (SetPosition (SetVerticalMargins (NewBuffer 10 8 dAttr 10) 2 5) 4 4).topMargin
            (SetPosition (SetVerticalMargins (NewBuffer 10 8 dAttr 10) 2 5) 4 4).bottomMargin
    ∧ (SetOriginMode (SetPosition (SetVerticalMargins (NewBuffer 10 8 dAttr 10) 2 5) 4 4) true).originMode = true
    ∧ (SetOriginMode (SetPosition (SetVerticalMargins (NewBuffer 10 8 dAttr 10) 2 5) 4 4) false).cursorX = 0
    ∧ (SetOriginMode (SetPosition (SetVerticalMargins (NewBuffer 10 8 dAttr 10) 2 5) 4 4) false).cursorY = 0
    ∧ (SetOriginMode (SetPosition (SetVerticalMargins (NewBuffer 10 8 dAttr 10) 2 5) 4 4) false).originMode = false :=
  C10_origin_mode_cursor (SetPosition (SetVerticalMargins (NewBuffer 10 8 dAttr 10) 2 5) 4 4)
    (by decide) (by decide) (by decide) (by decide) (by decide) (by decide)

theorem listModify_length (l : List Line) (i : Nat) (f : Line → Line) :
    (listModify l i f).length = l.length := by
  unfold listModify
  split
  · rfl
  · simp [List.length_set]

theorem listModify_get_self (l : List Line) (i : Nat) (f : Line → Line) (a : Line)
    (ha : l.get? i = some a) : (listModify l i f).get? i = some (f a) := by
  obtain ⟨hlt, -⟩ := List.get?_eq_some.mp ha
  simp only [listModify, ha]
  exact List.get?_set_eq_of_lt _ hlt

theorem padset_le (cells : List Cell) (d sp : Cell) (x : Nat) :
    x + 1 ≤ ((cells ++ List.replicate (x + 1 - cells.length) d).set x sp).length := by
  simp only [List.length_set, List.length_append, List.length_replicate]
  omega

theorem padset_get_self (cells : List Cell) (d sp : Cell) (x : Nat) :
    ((cells ++ List.replicate (x + 1 - cells.length) d).set x sp).get? x = some sp :=
  List.get?_set_eq_of_lt _ (by simp only [List.length_append, List.length_replicate]; omega)

theorem padset_get_lt (cells : List Cell) (d sp : Cell) (x j : Nat)
    (hj : j < x) (hx : x ≤ cells.length) :
    ((cells ++ List.replicate (x + 1 - cells.length) d).set x sp).get? j = cells.get? j := by
  rw [List.get?_set_ne _ _ (by omega)]
  exact List.get?_append (by omega)

theorem gvl_facts (b : Buffer) (hY : b.cursorY < b.viewHeight) :
    b.lines.length ≤ (gvlPad b b.cursorY).length
    ∧ gvlIdx b b.cursorY < (gvlPad b b.cursorY).length
    ∧ ((gvlPad b b.cursorY).length < b.viewHeight → b.cursorY < (gvlPad b b.cursorY).length)
    ∧ ((gvlPad b b.cursorY).length < b.viewHeight → gvlIdx b b.cursorY = b.cursorY)
    ∧ (b.viewHeight ≤ (gvlPad b b.cursorY).length →
        gvlIdx b b.cursorY = b.cursorY + ((gvlPad b b.cursorY).length - b.viewHeight))
    ∧ ((b.lines.length < b.viewHeight → b.cursorY < b.lines.length) →
        gvlPad b b.cursorY = b.lines) := by
  have hnot : ¬ b.viewHeight ≤ b.cursorY := by omega
  simp only [gvlPad, gvlIdx, convertViewLineToRawLine, hnot, if_false]
  split_ifs with h1 h2 h3
  · -- store shorter than the view and too short for the cursor row: pad
    have hlen : (b.lines ++ List.replicate (b.cursorY + 1 - b.lines.length) newLine).length
        = b.cursorY + 1 := by
      simp only [List.length_append, List.length_replicate]
      omega
    refine ⟨by omega, by omega, by omega, fun _ => rfl, fun hge => by omega, fun hst => ?_⟩
    exact absurd (hst h1) (by omega)
  · -- store shorter than the view but already holding the cursor row
    exact ⟨le_refl _, by omega, fun _ => by omega, fun _ => rfl, fun hge => by omega,
      fun _ => rfl⟩
  · -- store at least as long as the view
    exact ⟨le_refl _, h3, fun hlt => by omega, fun hlt => by omega, fun _ => rfl, fun _ => rfl⟩
  · exact absurd hY (by omega)

theorem incrementCursorPosition_lines (b : Buffer) :
    (incrementCursorPosition b).lines = b.lines := by
  unfold incrementCursorPosition
  split <;> rfl

theorem incrementCursorPosition_cursorY (b : Buffer) :
    (incrementCursorPosition b).cursorY = b.cursorY := by
  unfold incrementCursorPosition
  split <;> rfl

theorem incrementCursorPosition_viewWidth (b : Buffer) :
    (incrementCursorPosition b).viewWidth = b.viewWidth := by
  unfold incrementCursorPosition
  split <;> rfl

theorem incrementCursorPosition_viewHeight (b : Buffer) :
    (incrementCursorPosition b).viewHeight = b.viewHeight := by
  unfold incrementCursorPosition
  split <;> rfl

theorem incrementCursorPosition_cursorAttr (b : Buffer) :
    (incrementCursorPosition b).cursorAttr = b.cursorAttr := by
  unfold incrementCursorPosition
  split <;> rfl

theorem cursorLineCells_congr (x y : Buffer) (hl : x.lines = y.lines)
    (hc : x.cursorY = y.cursorY) (hv : x.viewHeight = y.viewHeight) :
    cursorLineCells x = cursorLineCells y := by
  unfold cursorLineCells RawLine convertViewLineToRawLine
  rw [hl, hc, hv]

theorem writeOne_facts (b : Buffer) (r : Nat)
    (hY : b.cursorY < b.viewHeight) (hX : b.cursorX < b.viewWidth) :
    (writeOne b r).2 = true
    ∧ (writeOne b r).1.cursorX = b.cursorX + 1
    ∧ (writeOne b r).1.cursorY = b.cursorY
    ∧ (writeOne b r).1.viewWidth = b.viewWidth
    ∧ (writeOne b r).1.viewHeight = b.viewHeight
    ∧ (writeOne b r).1.cursorAttr = b.cursorAttr
    ∧ (writeOne b r).1.lines.length = (gvlPad b b.cursorY).length
    ∧ cursorLineCells (writeOne b r).1
        = ((((gvlPad b b.cursorY).get? (gvlIdx b b.cursorY)).getD default).cells
            ++ List.replicate (b.cursorX + 1
                - (((gvlPad b b.cursorY).get? (gvlIdx b b.cursorY)).getD default).cells.length)
              b.defaultCell).set b.cursorX { r := r, attr := b.cursorAttr } := by
  have hnot : ¬ b.viewWidth ≤ b.cursorX := by omega
  obtain ⟨-, hIdxLt, -, h4a, h4b, -⟩ := gvl_facts b hY
  obtain ⟨c0, hc0⟩ : ∃ c0, (gvlPad b b.cursorY).get? (gvlIdx b b.cursorY) = some c0 :=
    ⟨_, List.get?_eq_get hIdxLt⟩
  have main : ∀ z : Buffer, z = incrementCursorPosition
        (setCellAt (padCells { b with lines := gvlPad b b.cursorY } (gvlIdx b b.cursorY) b.cursorX)
          (gvlIdx b b.cursorY) b.cursorX r) →
      z.cursorX = b.cursorX + 1 ∧ z.cursorY = b.cursorY ∧ z.viewWidth = b.viewWidth
      ∧ z.viewHeight = b.viewHeight ∧ z.cursorAttr = b.cursorAttr
      ∧ z.lines.length = (gvlPad b b.cursorY).length
      ∧ cursorLineCells z
          = ((((gvlPad b b.cursorY).get? (gvlIdx b b.cursorY)).getD default).cells
              ++ List.replicate (b.cursorX + 1
                  - (((gvlPad b b.cursorY).get? (gvlIdx b b.cursorY)).getD default).cells.length)
                b.defaultCell).set b.cursorX { r := r, attr := b.cursorAttr } := by
    intro z hz
    subst hz
    have hlenz : (incrementCursorPosition
        (setCellAt (padCells { b with lines := gvlPad b b.cursorY } (gvlIdx b b.cursorY) b.cursorX)
          (gvlIdx b b.cursorY) b.cursorX r)).lines.length = (gvlPad b b.cursorY).length := by
      rw [incrementCursorPosition_lines]
      show (listModify (listModify (gvlPad b b.cursorY) _ _) _ _).length = _
      rw [listModify_length, listModify_length]
    refine ⟨?_, incrementCursorPosition_cursorY _, incrementCursorPosition_viewWidth _,
      incrementCursorPosition_viewHeight _, incrementCursorPosition_cursorAttr _, hlenz, ?_⟩
    · unfold incrementCursorPosition
      split
      · rfl
      · next hcon => exact absurd hX hcon
    · have hcells : (incrementCursorPosition
          (setCellAt (padCells { b with lines := gvlPad b b.cursorY } (gvlIdx b b.cursorY) b.cursorX)
            (gvlIdx b b.cursorY) b.cursorX r)).lines.get? (gvlIdx b b.cursorY)
          = some (Line.mk
              ((c0.cells ++ List.replicate (b.cursorX + 1 - c0.cells.length) b.defaultCell).set
                b.cursorX (Cell.mk r b.cursorAttr))
              c0.wrapped) := by
        rw [incrementCursorPosition_lines]
        show (listModify (listModify (gvlPad b b.cursorY) _ _) _ _).get? _ = _
        rw [listModify_get_self _ _ _ _ (listModify_get_self _ _ _ _ hc0)]
        rfl
      have hraw : RawLine (incrementCursorPosition
          (setCellAt (padCells { b with lines := gvlPad b b.cursorY } (gvlIdx b b.cursorY) b.cursorX)
            (gvlIdx b b.cursorY) b.cursorX r)) = gvlIdx b b.cursorY := by
        unfold RawLine convertViewLineToRawLine
        rw [hlenz, incrementCursorPosition_cursorY, incrementCursorPosition_viewHeight]
        show (if (gvlPad b b.cursorY).length < b.viewHeight then b.cursorY
            else b.cursorY + ((gvlPad b b.cursorY).length - b.viewHeight)) = _
        split_ifs with hsplit
        · exact (h4a hsplit).symm
        · exact (h4b (by omega)).symm
      unfold cursorLineCells
      rw [hraw, hcells, hc0]
      rfl
  constructor
  · simp only [writeOne, getCurrentLineIdx, getViewLineIdx, hnot, if_false]
    split_ifs <;> rfl
  · have heq : (writeOne b r).1 = incrementCursorPosition
        (setCellAt (padCells { b with lines := gvlPad b b.cursorY } (gvlIdx b b.cursorY) b.cursorX)
          (gvlIdx b b.cursorY) b.cursorX r) := by
      simp only [writeOne, getCurrentLineIdx, getViewLineIdx, hnot, if_false]
      split_ifs <;> rfl
    exact main _ heq

theorem Write_single_facts (c : Buffer) (r : Nat)
    (hY : c.cursorY < c.viewHeight) (hX : c.cursorX < c.viewWidth) :
    (Write c [r]).cursorX = c.cursorX + 1
    ∧ (Write c [r]).cursorY = c.cursorY
    ∧ (Write c [r]).viewWidth = c.viewWidth
    ∧ (Write c [r]).viewHeight = c.viewHeight
    ∧ (Write c [r]).cursorAttr = c.cursorAttr
    ∧ (Write c [r]).lines.length = (gvlPad c c.cursorY).length
    ∧ cursorLineCells (Write c [r])
        = ((((gvlPad c c.cursorY).get? (gvlIdx c c.cursorY)).getD default).cells
            ++ List.replicate (c.cursorX + 1
                - (((gvlPad c c.cursorY).get? (gvlIdx c c.cursorY)).getD default).cells.length)
              c.defaultCell).set c.cursorX { r := r, attr := c.cursorAttr } := by
  obtain ⟨hf, h1, h2, h3, h4, h5, h6, h7⟩ :=
    writeOne_facts { c with scrollLinesFromBottom := 0 } r hY hX
  have heq : Write c [r] = (writeOne { c with scrollLinesFromBottom := 0 } r).1 := by
    simp only [Write, writeRunes, hf, if_true]
  rw [heq]
  exact ⟨h1, h2, h3, h4, h5, h6, h7⟩

theorem tabLoop_spec (k : Nat) :
    ∀ c : Buffer, c.cursorY < c.viewHeight → c.cursorX + k < c.viewWidth →
      (tabLoop k c).cursorX = c.cursorX + k
      ∧ (tabLoop k c).cursorY = c.cursorY
      ∧ (tabLoop k c).viewWidth = c.viewWidth
      ∧ (tabLoop k c).viewHeight = c.viewHeight
      ∧ (∀ j, c.cursorX ≤ j → j < c.cursorX + k →
          (cursorLineCells (tabLoop k c)).get? j = some { r := 32, attr := c.cursorAttr })
      ∧ ((c.lines.length < c.viewHeight → c.cursorY < c.lines.length) →
          c.cursorX ≤ (cursorLineCells c).length →
          ∀ j, j < c.cursorX →
            (cursorLineCells (tabLoop k c)).get? j = (cursorLineCells c).get? j) := by
  induction k with
  | zero =>
    intro c _ _
    exact ⟨rfl, rfl, rfl, rfl, fun j h1 h2 => absurd h2 (by omega), fun _ _ _ _ => rfl⟩
  | succ n ih =>
    intro c hY hX
    have hX1 : c.cursorX < c.viewWidth := by omega
    obtain ⟨w1, w2, w3, w4, w5, w6, w7⟩ := Write_single_facts c 32 hY hX1
    obtain ⟨-, gIdxLt, gStable, g4a, g4b, gFrame⟩ := gvl_facts c hY
    have hStable1 : (Write c [32]).lines.length < (Write c [32]).viewHeight →
        (Write c [32]).cursorY < (Write c [32]).lines.length := by
      rw [w6, w4, w2]
      exact gStable
    have hLen1 : (Write c [32]).cursorX ≤ (cursorLineCells (Write c [32])).length := by
      rw [w1, w7]
      exact padset_le _ _ _ _
    have hSpace0 : (cursorLineCells (Write c [32])).get? c.cursorX
        = some { r := 32, attr := c.cursorAttr } := by
      rw [w7]
      exact padset_get_self _ _ _ _
    obtain ⟨i1, i2, i3, i4, i5, i6⟩ := ih (Write c [32])
      (by rw [w2, w4]; exact hY) (by rw [w1, w3]; omega)
    have hstep : tabLoop (n + 1) c = tabLoop n (Write c [32]) := rfl
    refine ⟨?_, ?_, ?_, ?_, ?_, ?_⟩
    · rw [hstep, i1, w1]
      omega
    · rw [hstep, i2, w2]
    · rw [hstep, i3, w3]
    · rw [hstep, i4, w4]
    · intro j hj1 hj2
      rw [hstep]
      rcases Nat.lt_or_ge j (c.cursorX + 1) with hj | hj
      · have hjx : j = c.cursorX := by omega
        rw [i6 hStable1 hLen1 j (by rw [w1]; omega), hjx]
        exact hSpace0
      · have := i5 j (by rw [w1]; omega) (by rw [w1]; omega)
        rw [this, w5]
    · intro hst hlen j hj
      rw [hstep, i6 hStable1 hLen1 j (by rw [w1]; omega), w7]
      have hPadEq : gvlPad c c.cursorY = c.lines := gFrame hst
      have hIdxEq : gvlIdx c c.cursorY = RawLine c := by
        unfold RawLine convertViewLineToRawLine
        split_ifs with hcase
        · exact g4a (by rw [hPadEq]; exact hcase)
        · rw [g4b (by rw [hPadEq]; omega), hPadEq]
      have hCellsEq : (((gvlPad c c.cursorY).get? (gvlIdx c c.cursorY)).getD default).cells
          = cursorLineCells c := by
        rw [hPadEq, hIdxEq]
        rfl
      rw [hCellsEq]
      exact padset_get_lt _ _ _ _ _ hj hlen

/-- Claim C6 (amended): for every in-range cursor position, `Tab` advances the
cursor to the next column congruent to 3 modulo 4 — one short of the next
multiple of 4 — clamped at `viewWidth - 1`, by writing space characters with
the current cursor attributes into the crossed columns. -/
theorem C6_tab_stops (b : Buffer) (hY : b.cursorY < b.viewHeight)
    (hX : b.cursorX < b.viewWidth) :
    (Tab b).cursorX = min (b.cursorX + (4 - (b.cursorX + 1) % 4)) (b.viewWidth - 1)
    ∧ (Tab b).cursorY = b.cursorY
    ∧ ∀ j, b.cursorX ≤ j → j < (Tab b).cursorX →
        (cursorLineCells (Tab b)).get? j = some { r := 32, attr := b.cursorAttr } := by
  have hKlt : b.cursorX + min (4 - (b.cursorX + 1) % 4) (b.viewWidth - 1 - b.cursorX)
      < b.viewWidth := by
    have hm := Nat.min_le_right (4 - (b.cursorX + 1) % 4) (b.viewWidth - 1 - b.cursorX)
    omega
  have hTab : Tab b
      = tabLoop (min (4 - (b.cursorX + 1) % 4) (b.viewWidth - 1 - b.cursorX)) b := by
    simp only [Tab]
    rw [if_pos hX]
    congr 1
    rw [Nat.min_def]
    split_ifs <;> omega
  obtain ⟨e1, e2, -, -, e5, -⟩ :=
    tabLoop_spec (min (4 - (b.cursorX + 1) % 4) (b.viewWidth - 1 - b.cursorX)) b hY hKlt
  refine ⟨?_, ?_, ?_⟩
  · rw [hTab, e1, Nat.min_def, Nat.min_def]
    split_ifs <;> omega
  · rw [hTab, e2]
  · intro j hj1 hj2
    rw [hTab] at hj2 ⊢
    rw [e1] at hj2
    exact e5 j hj1 hj2

/-- Witness for `C6_tab_stops` on a fresh 10×3 buffer: `Tab` from column 0
stops at column 3 = min(0 + 3, 9) and fills columns 0..2 with spaces. -/
theorem C6_tab_stops_witness :
    (Tab (NewBuffer 10 3 dAttr 10)).cursorX
      = min ((NewBuffer 10 3 dAttr 10).cursorX
          + (4 - ((NewBuffer 10 3 dAttr 10).cursorX + 1) % 4))
        ((NewBuffer 10 3 dAttr 10).viewWidth - 1)
    ∧ (Tab (NewBuffer 10 3 dAttr 10)).cursorY = (NewBuffer 10 3 dAttr 10).cursorY
    ∧ (cursorLineCells (Tab (NewBuffer 10 3 dAttr 10))).get? 2
        = some { r := 32, attr := (NewBuffer 10 3 dAttr 10).cursorAttr } := by
  obtain ⟨h1, h2, h3⟩ := C6_tab_stops (NewBuffer 10 3 dAttr 10) (by decide) (by decide)
  exact ⟨h1, h2, h3 2 (by decide) (by rw [h1]; decide)⟩

end Aminal
